import Mathlib

/-!
Verification of the wechat-pub-rs core against its specification.

The repository source under `src/` contains `client.rs`, `lib.rs` and
`datacube.rs`.  The crate modules `auth` (Token Cache), `upload` (Upload
Scheduler, Upload Cache, image uploader), `utils` (content hasher) and
`markdown` are declared in `lib.rs` but their code is not present; for the
claims that depend on them the definitions below are modelled from the
specification (each such definition says so in its doc comment).  The
definitions for `WeChatClient::upload`, `upload_with_options`,
`update_draft_with_options` and `validate_upload_input` are shallow
embeddings of `src/client.rs`.
-/

/- ## Content hasher (spec section 4.2) -/

/-- Modelled from the spec: the content hasher of the `utils`/`upload`
modules (absent from `src/`; `lib.rs` documents it as a BLAKE3 digest of
the image bytes).  Modelled as a deterministic digest computed from the
full byte content only, folded over the bytes with 64-bit wrap-around. -/
def hashBytes (bytes : List Nat) : Nat :=
  bytes.foldl (fun h b => (h * 131 + b % 256) % (2 ^ 64)) 2166136261

/-- Modelled from the spec: a local resource submitted for upload.  The
digest is taken over the raw bytes, never the file name, path or time. -/
structure Resource where
  file_name : String
  file_path : String
  modified_at : Nat
  bytes : List Nat
deriving Repr, DecidableEq

/-- Modelled from the spec: the content identifier of a resource is the
digest of its full byte content. -/
def content_id (r : Resource) : Nat := hashBytes r.bytes

/- ## Token cache (spec section 4.1) -/

/-- Modelled from the spec: a bearer credential held by the Token Cache
(module `auth`, absent from `src/`). -/
structure Credential where
  value : String
  obtained_at : Nat
  expires_at : Nat
deriving Repr, DecidableEq

/-- Modelled from the spec: the staleness check of `get_valid_credential`.
A cached credential is fresh enough when its remaining lifetime at `now`
is at least the configured refresh safety margin. -/
def fresh_enough (c : Credential) (now margin : Nat) : Bool :=
  decide (now + margin ≤ c.expires_at)

/-- State of one single-flight refresh episode: whether a refresh is
already in flight and how many refresh network calls have been issued. -/
structure SFState where
  inflight : Bool
  refresh_calls : Nat
deriving Repr, DecidableEq

/-- Modelled from the spec: the arrival of `n` concurrent callers that all
observe a stale or absent credential.  The first caller to observe the
stale state initiates the refresh (issuing the one network call); every
later caller finds a refresh in flight and joins it instead of issuing
its own. -/
def arriveAll : Nat → SFState → SFState
  | 0, st => st
  | n + 1, st =>
    arriveAll n
      (if st.inflight then st
       else { inflight := true, refresh_calls := st.refresh_calls + 1 })

/-- Modelled from the spec: one staleness episode of
`get_valid_credential` with `callers` concurrent callers.  `cached` is the
credential currently installed (if any); `fresh` is the credential the
issuer returns for the single refresh call of this episode.  Returns the
credentials delivered to the callers (in arrival order) together with the
number of refresh network calls issued during the episode.  If the cached
credential is fresh enough every caller receives it with no network call;
otherwise the callers share one in-flight refresh and all receive the
freshly issued credential once it is installed. -/
def get_valid_credential_episode (cached : Option Credential)
    (now margin : Nat) (fresh : Credential) (callers : Nat) :
    List Credential × Nat :=
  match cached with
  | some c =>
    if fresh_enough c now margin then
      (List.replicate callers c, 0)
    else
      (List.replicate callers fresh, (arriveAll callers ⟨false, 0⟩).refresh_calls)
  | none =>
    (List.replicate callers fresh, (arriveAll callers ⟨false, 0⟩).refresh_calls)

theorem arriveAll_inflight (n : Nat) (c : Nat) :
    arriveAll n ⟨true, c⟩ = ⟨true, c⟩ := by
  induction n with
  | zero => rfl
  | succ k ih => simpa [arriveAll] using ih

theorem arriveAll_calls_one (n : Nat) (hn : 1 ≤ n) :
    (arriveAll n ⟨false, 0⟩).refresh_calls = 1 := by
  cases n with
  | zero => cases hn
  | succ k => simp [arriveAll, arriveAll_inflight]

/-- C4: for every number N of concurrent callers of `get_valid_credential`
arriving while the cached credential is stale or absent, exactly one
refresh call is issued to the credential collaborator, and all N callers
receive a credential whose `expires_at` is no earlier than the one
actually issued. -/
theorem single_flight_refresh (cached : Option Credential)
    (now margin : Nat) (fresh : Credential) (n : Nat)
    (hstale : cached = none ∨
      ∃ c, cached = some c ∧ fresh_enough c now margin = false)
    (hn : 1 ≤ n) :
    (get_valid_credential_episode cached now margin fresh n).2 = 1 ∧
      ∀ cr ∈ (get_valid_credential_episode cached now margin fresh n).1,
        fresh.expires_at ≤ cr.expires_at := by
  rcases hstale with h | ⟨c, hc, hfe⟩
  · subst h
    refine ⟨arriveAll_calls_one n hn, ?_⟩
    intro cr hcr
    simp only [get_valid_credential_episode, List.mem_replicate] at hcr
    exact hcr.2 ▸ le_refl _
  · subst hc
    refine ⟨?_, ?_⟩
    · simp [get_valid_credential_episode, hfe, arriveAll_calls_one n hn]
    · intro cr hcr
      simp [get_valid_credential_episode, hfe, List.mem_replicate] at hcr
      exact hcr.2 ▸ le_refl _

/-- Witness for C4: two concurrent callers with an absent cached
credential trigger exactly one refresh call and both receive the issued
credential. -/
theorem single_flight_refresh_witness :
    (none = (none : Option Credential) ∨
      ∃ c, (none : Option Credential) = some c ∧ fresh_enough c 10 30 = false) ∧
    1 ≤ 2 ∧
    ((get_valid_credential_episode none 10 30 ⟨"tok", 10, 7210⟩ 2).2 = 1 ∧
      ∀ cr ∈ (get_valid_credential_episode none 10 30 ⟨"tok", 10, 7210⟩ 2).1,
        (Credential.mk "tok" 10 7210).expires_at ≤ cr.expires_at) :=
  ⟨Or.inl rfl, by decide,
    single_flight_refresh none 10 30 ⟨"tok", 10, 7210⟩ 2 (Or.inl rfl) (by decide)⟩

/-- C5: assuming a functioning credential issuer (the issued credential
has remaining lifetime at least the margin), every credential returned by
`get_valid_credential` has remaining lifetime at least the configured
refresh safety margin. -/
theorem margin_respected (cached : Option Credential)
    (now margin : Nat) (fresh : Credential) (n : Nat)
    (hissuer : now + margin ≤ fresh.expires_at) :
    ∀ cr ∈ (get_valid_credential_episode cached now margin fresh n).1,
      now + margin ≤ cr.expires_at := by
  intro cr hcr
  match hc : cached with
  | none =>
    simp only [get_valid_credential_episode, List.mem_replicate] at hcr
    exact hcr.2 ▸ hissuer
  | some c =>
    by_cases hfe : fresh_enough c now margin
    · simp [get_valid_credential_episode, hfe, List.mem_replicate] at hcr
      have : now + margin ≤ c.expires_at := of_decide_eq_true hfe
      exact hcr.2 ▸ this
    · simp [get_valid_credential_episode, hfe, List.mem_replicate] at hcr
      exact hcr.2 ▸ hissuer

/-- Witness for C5: with a cached credential inside the margin and a
functioning issuer, all three callers receive a credential with at least
the margin of remaining lifetime. -/
theorem margin_respected_witness :
    10 + 30 ≤ (Credential.mk "tok" 10 7210).expires_at ∧
    ∀ cr ∈ (get_valid_credential_episode (some ⟨"old", 0, 20⟩) 10 30
        ⟨"tok", 10, 7210⟩ 3).1,
      10 + 30 ≤ cr.expires_at :=
  ⟨by decide,
    margin_respected (some ⟨"old", 0, 20⟩) 10 30 ⟨"tok", 10, 7210⟩ 3 (by decide)⟩

/-- C7: the content hash is a pure, deterministic function of the
resource's full byte content only: any two resources with equal byte
sequences receive the same content identifier, whatever their file names,
locations or modification times are. -/
theorem hash_depends_only_on_bytes (r1 r2 : Resource)
    (h : r1.bytes = r2.bytes) : content_id r1 = content_id r2 := by
  simp [content_id, h]

/-- Witness for C7: two resources with different names, paths and times
but identical bytes share a content identifier. -/
theorem hash_depends_only_on_bytes_witness :
    (Resource.mk "a.png" "/tmp/a.png" 0 [1, 2, 3]).bytes =
      (Resource.mk "b.png" "/home/b.png" 99 [1, 2, 3]).bytes ∧
    content_id (Resource.mk "a.png" "/tmp/a.png" 0 [1, 2, 3]) =
      content_id (Resource.mk "b.png" "/home/b.png" 99 [1, 2, 3]) :=
  ⟨rfl, hash_depends_only_on_bytes
    (Resource.mk "a.png" "/tmp/a.png" 0 [1, 2, 3])
    (Resource.mk "b.png" "/home/b.png" 99 [1, 2, 3]) rfl⟩

/- ## Client pipeline (src/client.rs) -/

/-- Error type of the crate (`crate::error::WeChatError`); the module is
absent from `src/`, so only the variants that `client.rs` and the crate
documentation use are embedded. -/
inductive WeChatError
  | FileNotFound (path : String)
  | ConfigError (message : String)
  | ThemeNotFound (theme : String)
  | Network (message : String)
deriving Repr, DecidableEq

/-- Upload options (`UploadOptions` in src/client.rs, lines 17-36). -/
structure UploadOptions where
  theme : String
  title : Option String
  author : Option String
  cover_image : Option String
  show_cover : Bool
  enable_comments : Bool
  fans_only_comments : Bool
  source_url : Option String
deriving Repr, DecidableEq

/-- `impl Default for UploadOptions` (src/client.rs, lines 38-51). -/
def UploadOptions.default : UploadOptions :=
  { theme := "default"
    title := none
    author := none
    cover_image := none
    show_cover := true
    enable_comments := false
    fans_only_comments := false
    source_url := none }

/-- An image reference extracted from the markdown
(`crate::markdown::ImageRef`, module absent from `src/`). -/
structure ImageRef where
  alt : String
  path : String
deriving Repr, DecidableEq

/-- Result of uploading one image (`crate::upload::UploadResult`, module
absent from `src/`; `client.rs` line 400 reads its `url` field). -/
structure UploadResult where
  original_path : String
  url : String
deriving Repr, DecidableEq

/-- Parsed markdown document (`crate::markdown::MarkdownContent`, module
absent from `src/`; the fields are the ones `client.rs` reads). -/
structure MarkdownContent where
  content : String
  images : List ImageRef
  title : Option String
  author : Option String
  description : Option String
  cover : Option String
  theme : Option String
  code : Option String
  metadata : List (String × String)
deriving Repr, DecidableEq

/-- A draft article (`crate::upload::Article`, module absent from `src/`;
built in `create_article` through the builder methods `with_digest`,
`with_show_cover`, `with_comments`, `with_cover_image`,
`with_source_url`). -/
structure Article where
  title : String
  author : String
  content_html : String
  digest : String
  show_cover : Bool
  enable_comments : Bool
  fans_only_comments : Bool
  cover_media_id : Option String
  source_url : Option String
deriving Repr, DecidableEq

/-- The collaborators `WeChatClient` delegates to: file system checks
(`utils`), the markdown parser, the mermaid processor, the image uploader,
the draft manager and the theme manager.  All of them live in modules
absent from `src/`; the client code treats each as an injected capability
returning a typed success or failure, which is how they are embedded. -/
structure ClientEnv where
  file_exists : String → Bool
  is_markdown_file : String → Bool
  is_image_file : String → Bool
  get_base_directory : String → String
  is_absolute : String → Bool
  join_path : String → String → String
  parse_file : String → Except WeChatError MarkdownContent
  process_mermaid : String → String → String →
    Except WeChatError (String × List ImageRef)
  upload_images : List ImageRef → Except WeChatError (List UploadResult)
  create_url_mapping : List UploadResult → List (String × String)
  replace_image_urls : String → List (String × String) →
    Except WeChatError String
  upload_cover_material : String → Except WeChatError String
  has_theme : String → Bool
  render : String → String → String → List (String × String) →
    Except WeChatError String
  create_draft : List Article → Except WeChatError String
  update_draft : String → List Article → Except WeChatError Unit
  get_summary : String → Nat → String

/-- Network side effects of a pipeline run, recorded in call order: the
bulk image upload call, the cover-material upload, and draft
creation/update. -/
inductive NetEffect
  | imageUploadCall (images : List ImageRef)
  | coverUploadCall (path : String)
  | draftCreateCall
  | draftUpdateCall (media_id : String)
deriving Repr, DecidableEq

/-- Cover path resolution (src/client.rs, lines 479-483 and 529-538): an
absolute cover path is used as is, a relative one is joined to the base
directory of the markdown file. -/
def resolve_cover_path (env : ClientEnv) (markdown_path cover_path : String) :
    String :=
  if env.is_absolute cover_path then cover_path
  else env.join_path (env.get_base_directory markdown_path) cover_path

/-- One cover-path validation block of `validate_upload_input`
(src/client.rs, lines 474-520): when a cover path is given it must resolve
to an existing file in a supported image format. -/
def check_cover_path (env : ClientEnv) (markdown_path : String)
    (cover : Option String) (format_message : String) :
    Except WeChatError Unit :=
  match cover with
  | none => .ok ()
  | some cover_path =>
    let p := resolve_cover_path env markdown_path cover_path
    if ¬ env.file_exists p then .error (.FileNotFound p)
    else if ¬ env.is_image_file p then .error (.ConfigError format_message)
    else .ok ()

/-- `WeChatClient::validate_upload_input` (src/client.rs, lines 440-523):
the markdown file must exist and be a markdown file, the document must
supply a cover image through the options or the frontmatter, and any
supplied cover path must point at an existing image file. -/
def validate_upload_input (env : ClientEnv) (markdown_path : String)
    (options : UploadOptions) : Except WeChatError Unit :=
  if ¬ env.file_exists markdown_path then
    .error (.FileNotFound markdown_path)
  else if ¬ env.is_markdown_file markdown_path then
    .error (.ConfigError "File is not a markdown file")
  else
    match env.parse_file markdown_path with
    | .error e => .error e
    | .ok content =>
      if ¬ options.cover_image.isSome ∧ ¬ content.cover.isSome then
        .error (.ConfigError "Cover image is required")
      else
        match check_cover_path env markdown_path options.cover_image
            "Cover file is not a supported image format" with
        | .error e => .error e
        | .ok _ =>
          check_cover_path env markdown_path content.cover
            "Cover file specified in frontmatter is not a supported image format"

/-- Metadata map insertion (the `HashMap::insert` calls of
`render_content`): the new binding replaces any previous binding of the
same key. -/
def insertMeta (m : List (String × String)) (k v : String) :
    List (String × String) :=
  (k, v) :: m.filter (fun p => p.1 ≠ k)

/-- `WeChatClient::render_content` (src/client.rs, lines 540-570):
frontmatter title/author are written into the metadata first and then
overridden by the options, and the theme manager renders the content with
the resolved theme and code highlighting style. -/
def render_content (env : ClientEnv) (content : MarkdownContent)
    (theme : String) (options : UploadOptions) :
    Except WeChatError String :=
  let m0 := content.metadata
  let m1 := match content.title with
    | some t => insertMeta m0 "title" t
    | none => m0
  let m2 := match content.author with
    | some a => insertMeta m1 "author" a
    | none => m1
  let m3 := match options.title with
    | some t => insertMeta m2 "title" t
    | none => m2
  let m4 := match options.author with
    | some a => insertMeta m3 "author" a
    | none => m3
  env.render content.content theme (content.code.getD "vscode") m4

/-- `WeChatClient::create_article` (src/client.rs, lines 572-613). -/
def create_article (env : ClientEnv) (content : MarkdownContent)
    (options : UploadOptions) (html_content : String)
    (cover_media_id : Option String) : Article :=
  { title := (options.title.or content.title).getD "Untitled"
    author := (options.author.or content.author).getD "Anonymous"
    content_html := html_content
    digest := content.description.getD (env.get_summary content.content 120)
    show_cover := options.show_cover
    enable_comments := options.enable_comments
    fans_only_comments := options.fans_only_comments
    cover_media_id := cover_media_id
    source_url := options.source_url }

/-- The theme resolution expression of `upload_with_options` and
`update_draft_with_options` (src/client.rs, lines 244-250 and 335-340):
`content.theme.as_ref().or(Some(and options.theme)).map(..).unwrap_or("default")`. -/
def resolveTheme (content : MarkdownContent) (options : UploadOptions) :
    String :=
  (content.theme.or (some options.theme)).getD "default"

/-- `WeChatClient::upload_with_options` (src/client.rs, lines 182-267),
returning the result together with the network side effects performed, in
order.  The `.expect` on the cover path in the source (line 238) is
unreachable after validation; it is embedded as a config error. -/
def upload_with_options (env : ClientEnv) (markdown_path : String)
    (options : UploadOptions) :
    Except WeChatError String × List NetEffect :=
  match validate_upload_input env markdown_path options with
  | .error e => (.error e, [])
  | .ok _ =>
  match env.parse_file markdown_path with
  | .error e => (.error e, [])
  | .ok content0 =>
  let base_dir := env.get_base_directory markdown_path
  match env.process_mermaid content0.content base_dir markdown_path with
  | .error e => (.error e, [])
  | .ok (modified_content, mermaid_images) =>
  let content1 := { content0 with
    content := modified_content
    images := content0.images ++ mermaid_images }
  match env.upload_images content1.images with
  | .error e => (.error e, [.imageUploadCall content1.images])
  | .ok upload_results =>
  let url_mapping := env.create_url_mapping upload_results
  match env.replace_image_urls content1.content url_mapping with
  | .error e => (.error e, [.imageUploadCall content1.images])
  | .ok replaced =>
  let content := { content1 with content := replaced }
  match options.cover_image.or content.cover with
  | none => (.error (.ConfigError "Cover image should be available from validation"),
      [.imageUploadCall content1.images])
  | some cover_path =>
  match env.upload_cover_material
      (resolve_cover_path env markdown_path cover_path) with
  | .error e => (.error e,
      [.imageUploadCall content1.images, .coverUploadCall cover_path])
  | .ok cover_media_id =>
  let theme := (content.theme.or (some options.theme)).getD "default"
  if ¬ env.has_theme theme then
    (.error (.ThemeNotFound theme),
      [.imageUploadCall content1.images, .coverUploadCall cover_path])
  else
  match render_content env content theme options with
  | .error e => (.error e,
      [.imageUploadCall content1.images, .coverUploadCall cover_path])
  | .ok html_content =>
  let article := create_article env content options html_content
    (some cover_media_id)
  match env.create_draft [article] with
  | .error e => (.error e,
      [.imageUploadCall content1.images, .coverUploadCall cover_path,
        .draftCreateCall])
  | .ok draft_id => (.ok draft_id,
      [.imageUploadCall content1.images, .coverUploadCall cover_path,
        .draftCreateCall])

/-- `WeChatClient::upload` (src/client.rs, lines 169-172): uploads with
the default options. -/
def upload (env : ClientEnv) (markdown_path : String) :
    Except WeChatError String × List NetEffect :=
  upload_with_options env markdown_path UploadOptions.default

/-- `WeChatClient::update_draft_with_options` (src/client.rs, lines
282-358): the same pipeline as `upload_with_options` up to article
creation, ending in a draft update instead of a draft creation. -/
def update_draft_with_options (env : ClientEnv) (media_id : String)
    (markdown_path : String) (options : UploadOptions) :
    Except WeChatError Unit × List NetEffect :=
  match validate_upload_input env markdown_path options with
  | .error e => (.error e, [])
  | .ok _ =>
  match env.parse_file markdown_path with
  | .error e => (.error e, [])
  | .ok content0 =>
  let base_dir := env.get_base_directory markdown_path
  match env.process_mermaid content0.content base_dir markdown_path with
  | .error e => (.error e, [])
  | .ok (modified_content, mermaid_images) =>
  let content1 := { content0 with
    content := modified_content
    images := content0.images ++ mermaid_images }
  match env.upload_images content1.images with
  | .error e => (.error e, [.imageUploadCall content1.images])
  | .ok upload_results =>
  let url_mapping := env.create_url_mapping upload_results
  match env.replace_image_urls content1.content url_mapping with
  | .error e => (.error e, [.imageUploadCall content1.images])
  | .ok replaced =>
  let content := { content1 with content := replaced }
  match options.cover_image.or content.cover with
  | none => (.error (.ConfigError "Cover image should be available from validation"),
      [.imageUploadCall content1.images])
  | some cover_path =>
  match env.upload_cover_material
      (resolve_cover_path env markdown_path cover_path) with
  | .error e => (.error e,
      [.imageUploadCall content1.images, .coverUploadCall cover_path])
  | .ok cover_media_id =>
  let theme := (content.theme.or (some options.theme)).getD "default"
  if ¬ env.has_theme theme then
    (.error (.ThemeNotFound theme),
      [.imageUploadCall content1.images, .coverUploadCall cover_path])
  else
  match render_content env content theme options with
  | .error e => (.error e,
      [.imageUploadCall content1.images, .coverUploadCall cover_path])
  | .ok html_content =>
  let article := create_article env content options html_content
    (some cover_media_id)
  match env.update_draft media_id [article] with
  | .error e => (.error e,
      [.imageUploadCall content1.images, .coverUploadCall cover_path,
        .draftUpdateCall media_id])
  | .ok _ => (.ok (),
      [.imageUploadCall content1.images, .coverUploadCall cover_path,
        .draftUpdateCall media_id])

/-- C8: `WeChatClient::upload` returns the same result as
`upload_with_options` with the default options, and the default options
are theme "default", no title, author, cover image or source URL
override, cover shown, comments disabled. -/
theorem upload_refines_upload_with_options :
    (∀ env markdown_path,
      upload env markdown_path =
        upload_with_options env markdown_path UploadOptions.default) ∧
    UploadOptions.default =
      { theme := "default", title := none, author := none,
        cover_image := none, show_cover := true, enable_comments := false,
        fans_only_comments := false, source_url := none } :=
  ⟨fun _ _ => rfl, rfl⟩

/-- C9: in `upload_with_options` and `update_draft_with_options` the theme
named in the frontmatter takes precedence over the one in the options (the
options theme is used only when the frontmatter names none), and when the
resolved theme is not registered in the theme manager both calls fail with
`ThemeNotFound`. -/
theorem theme_precedence_and_not_found (env : ClientEnv)
    (media_id markdown_path : String) (options : UploadOptions)
    (content : MarkdownContent) (mc : String) (mimgs : List ImageRef)
    (ups : List UploadResult) (rep : String) (cp : String) (cmid : String)
    (hvalid : validate_upload_input env markdown_path options = .ok ())
    (hparse : env.parse_file markdown_path = .ok content)
    (hmermaid : env.process_mermaid content.content
      (env.get_base_directory markdown_path) markdown_path = .ok (mc, mimgs))
    (himgs : env.upload_images (content.images ++ mimgs) = .ok ups)
    (hreplace : env.replace_image_urls mc (env.create_url_mapping ups) = .ok rep)
    (hcover : options.cover_image.or content.cover = some cp)
    (hcovup : env.upload_cover_material
      (resolve_cover_path env markdown_path cp) = .ok cmid)
    (hnotheme : env.has_theme (resolveTheme content options) = false) :
    (upload_with_options env markdown_path options).1 =
      .error (.ThemeNotFound (resolveTheme content options)) ∧
    (update_draft_with_options env media_id markdown_path options).1 =
      .error (.ThemeNotFound (resolveTheme content options)) ∧
    (∀ t, content.theme = some t → resolveTheme content options = t) ∧
    (content.theme = none → resolveTheme content options = options.theme) := by
  have hnt : env.has_theme ((content.theme.or (some options.theme)).getD "default")
      = false := by simpa [resolveTheme] using hnotheme
  refine ⟨?_, ?_, ?_, ?_⟩
  · simp [upload_with_options, hvalid, hparse, hmermaid, himgs, hreplace,
      hcover, hcovup, hnt, resolveTheme]
  · simp [update_draft_with_options, hvalid, hparse, hmermaid, himgs,
      hreplace, hcover, hcovup, hnt, resolveTheme]
  · intro t ht
    simp [resolveTheme, ht]
  · intro h
    simp [resolveTheme, h]

/-- A concrete parsed document used by the pipeline witnesses: the
frontmatter names the theme "lapis" and the cover "img.png". -/
def contentW : MarkdownContent :=
  { content := "hello"
    images := []
    title := some "T"
    author := some "A"
    description := none
    cover := some "img.png"
    theme := some "lapis"
    code := none
    metadata := [] }

/-- A concrete collaborator environment used by the pipeline witnesses:
every collaborator succeeds and the theme manager only registers the
theme "default". -/
def envW : ClientEnv :=
  { file_exists := fun _ => true
    is_markdown_file := fun _ => true
    is_image_file := fun _ => true
    get_base_directory := fun _ => "."
    is_absolute := fun _ => false
    join_path := fun a b => a ++ "/" ++ b
    parse_file := fun _ => .ok contentW
    process_mermaid := fun c _ _ => .ok (c, [])
    upload_images := fun _ => .ok []
    create_url_mapping := fun _ => []
    replace_image_urls := fun c _ => .ok c
    upload_cover_material := fun _ => .ok "cover-media"
    has_theme := fun t => t == "default"
    render := fun c _ _ _ => .ok c
    create_draft := fun _ => .ok "draft-1"
    update_draft := fun _ _ => .ok ()
    get_summary := fun c _ => c }

/-- Witness for C9: with a frontmatter theme "lapis" that the theme
manager does not register, the upload fails with `ThemeNotFound "lapis"`
even though the options ask for "default". -/
theorem theme_precedence_and_not_found_witness :
    (upload_with_options envW "a.md" UploadOptions.default).1 =
      Except.error (WeChatError.ThemeNotFound "lapis") :=
  (theme_precedence_and_not_found envW "m1" "a.md" UploadOptions.default
    contentW "hello" [] [] "hello" "img.png" "cover-media"
    rfl rfl rfl rfl rfl rfl rfl rfl).1

/-- C10: when neither the options nor the frontmatter supplies a cover
image, `upload_with_options` fails with a configuration error already
during input validation, with no network side effect performed. -/
theorem missing_cover_rejected_before_network (env : ClientEnv)
    (markdown_path : String) (options : UploadOptions)
    (content : MarkdownContent)
    (hex : env.file_exists markdown_path = true)
    (hmd : env.is_markdown_file markdown_path = true)
    (hparse : env.parse_file markdown_path = .ok content)
    (hoc : options.cover_image = none)
    (hcc : content.cover = none) :
    validate_upload_input env markdown_path options =
      .error (.ConfigError "Cover image is required") ∧
    upload_with_options env markdown_path options =
      (.error (.ConfigError "Cover image is required"), []) := by
  have hv : validate_upload_input env markdown_path options =
      .error (.ConfigError "Cover image is required") := by
    simp [validate_upload_input, hex, hmd, hparse, hoc, hcc]
  exact ⟨hv, by simp [upload_with_options, hv]⟩

/-- The witness document without any cover image. -/
def contentNoCoverW : MarkdownContent := { contentW with cover := none }

/-- The witness environment whose parser returns the document without a
cover image. -/
def envNoCoverW : ClientEnv :=
  { envW with parse_file := fun _ => .ok contentNoCoverW }

/-- Witness for C10: a markdown file without a cover in options or
frontmatter is rejected with the configuration error and an empty network
effect list. -/
theorem missing_cover_rejected_before_network_witness :
    validate_upload_input envNoCoverW "a.md" UploadOptions.default =
      Except.error (WeChatError.ConfigError "Cover image is required") ∧
    upload_with_options envNoCoverW "a.md" UploadOptions.default =
      (Except.error (WeChatError.ConfigError "Cover image is required"), []) :=
  missing_cover_rejected_before_network envNoCoverW "a.md"
    UploadOptions.default contentNoCoverW rfl rfl rfl rfl rfl

/- ## Upload scheduler (spec sections 4.3, 4.4, 7) -/

/-- Raw byte content of an upload task. -/
abbrev ByteContent := List Nat

/-- Modelled from the spec: the typed response of the HTTP-transport
collaborator to one upload attempt (spec section 6): success with a
remote URL and optional media identifier, a credential-expired failure, a
transient failure (network or rate limit) or a terminal failure
(malformed input, unsupported content). -/
inductive UploadResp
  | ok (url : String) (media_id : Option String)
  | credentialExpired
  | transientFailure (message : String)
  | terminalFailure (message : String)
deriving Repr, DecidableEq

/-- Modelled from the spec: the terminal error a task resolves with (spec
section 7 taxonomy). -/
inductive UploadErr
  | credential
  | transientExhausted
  | terminal (message : String)
deriving Repr, DecidableEq

/-- Result of running the per-task attempt loop: the outcome, the number
of transport upload calls made and the number of forced token refreshes
issued. -/
structure AttemptResult where
  outcome : Except UploadErr (String × Option String)
  calls : Nat
  refreshes : Nat
deriving Repr

/-- Modelled from the spec: one round of the per-task attempt loop of the
Upload Scheduler (module `upload`, absent from `src/`; spec section 4.4
steps 3, 5, 6).  `resp i` is the transport response to the i-th attempt.
A success resolves the task; a credential-expired response forces exactly
one token refresh and retries the single upload call exactly once before
giving up; a transient failure defers to the rest of the retry loop
(`onTransient`); a terminal failure resolves the task as failed at
once. -/
def attemptStep (resp : Nat → UploadResp) (i : Nat)
    (onTransient : AttemptResult) : AttemptResult :=
  match resp i with
  | .ok u m => ⟨.ok (u, m), 1, 0⟩
  | .credentialExpired =>
    match resp (i + 1) with
    | .ok u m => ⟨.ok (u, m), 2, 1⟩
    | _ => ⟨.error .credential, 2, 1⟩
  | .transientFailure _ => onTransient
  | .terminalFailure msg => ⟨.error (.terminal msg), 1, 0⟩

/-- The attempt loop itself: `attemptStep` applied with the remaining
retry budget, recursing on a transient failure while budget remains. -/
def attemptFrom (resp : Nat → UploadResp) : Nat → Nat → AttemptResult
  | i, 0 => attemptStep resp i ⟨.error .transientExhausted, 1, 0⟩
  | i, f + 1 =>
    attemptStep resp i
      (let r := attemptFrom resp (i + 1) f
       ⟨r.outcome, r.calls + 1, r.refreshes⟩)

/-- Modelled from the spec: a cache entry of the content-addressed Upload
Cache (spec section 3). -/
structure CacheEntry where
  remote_url : String
  remote_media_id : Option String
deriving Repr, DecidableEq

/-- Lookup in the Upload Cache, keyed by content identifier. -/
def lookupCache : List (Nat × CacheEntry) → Nat → Option CacheEntry
  | [], _ => none
  | (k, e) :: rest, cid => if k = cid then some e else lookupCache rest cid

/-- Modelled from the spec: `insert_if_absent(content_id, entry)` of the
Upload Cache (spec section 4.3) — returns the updated cache together with
the entry that ends up stored: an already-present entry wins and the new
result is discarded. -/
def insert_if_absent (cache : List (Nat × CacheEntry)) (cid : Nat)
    (entry : CacheEntry) : List (Nat × CacheEntry) × CacheEntry :=
  match lookupCache cache cid with
  | some stored => (cache, stored)
  | none => ((cid, entry) :: cache, entry)

/-- Modelled from the spec: the resolution state of one upload task (spec
section 3, UploadTask outcome: pending, succeeded with a URL, or failed
with a terminal error). -/
inductive Outcome
  | pending
  | succeeded (url : String)
  | failed (err : UploadErr)
deriving Repr, DecidableEq

/-- Lookup of a task index in the outcome assignments (newest first). -/
def lookupAsg : List (Nat × Outcome) → Nat → Option Outcome
  | [], _ => none
  | (k, o) :: rest, i => if k = i then some o else lookupAsg rest i

/-- Shared state of one `upload_all` run: the Upload Cache, the log of
transport upload calls (one entry per attempt, recording the byte content
sent), the number of forced token refreshes, and the per-task outcome
assignments. -/
structure SchedState where
  cache : List (Nat × CacheEntry)
  callLog : List ByteContent
  refresh_count : Nat
  assignments : List (Nat × Outcome)
deriving Repr, DecidableEq

/-- Modelled from the spec: processing of one upload task by the Upload
Scheduler (spec section 4.4 per-task algorithm).  The content identifier
is computed, the Upload Cache is consulted (a hit resolves immediately
with the cached URL and no network call), and on a miss the attempt loop
runs against the transport; a success goes through `insert_if_absent` and
the task resolves with whichever entry is authoritative. -/
def runTask (upload : ByteContent → Nat → UploadResp) (max_retries : Nat)
    (idx : Nat) (task : String × ByteContent) (st : SchedState) :
    SchedState :=
  let cid := hashBytes task.2
  match lookupCache st.cache cid with
  | some entry =>
    { st with assignments := (idx, .succeeded entry.remote_url) :: st.assignments }
  | none =>
    let r := attemptFrom (upload task.2) 0 max_retries
    let log := st.callLog ++ List.replicate r.calls task.2
    let refreshes := st.refresh_count + r.refreshes
    match r.outcome with
    | .ok (u, m) =>
      let inserted := insert_if_absent st.cache cid ⟨u, m⟩
      { cache := inserted.1
        callLog := log
        refresh_count := refreshes
        assignments := (idx, .succeeded inserted.2.remote_url) :: st.assignments }
    | .error e =>
      { st with
        callLog := log
        refresh_count := refreshes
        assignments := (idx, .failed e) :: st.assignments }

/-- Modelled from the spec: the Upload Scheduler processing its tasks in
an arbitrary completion order `order` (a permutation of the task
indices); each step resolves the task whose index comes next in the
completion order. -/
def runSched (upload : ByteContent → Nat → UploadResp) (max_retries : Nat)
    (tasks : List (String × ByteContent)) :
    List Nat → SchedState → SchedState
  | [], st => st
  | i :: rest, st =>
    match tasks[i]? with
    | none => runSched upload max_retries tasks rest st
    | some t => runSched upload max_retries tasks rest
        (runTask upload max_retries i t st)

/-- The initial shared state: empty cache, no calls, no refreshes, no
assignments. -/
def initState : SchedState := ⟨[], [], 0, []⟩

/-- Modelled from the spec: `upload_all(tasks) -> ordered sequence of
outcomes` (spec section 4.4 contract).  The tasks are resolved in the
completion order `order`, and the outcome sequence is assembled in the
caller's original input order, pairing each input reference with the
outcome assigned to its position. -/
def upload_all (upload : ByteContent → Nat → UploadResp) (max_retries : Nat)
    (tasks : List (String × ByteContent)) (order : List Nat) :
    List (String × Outcome) :=
  let st := runSched upload max_retries tasks order initState
  (List.range tasks.length).map fun i =>
    ((tasks[i]?.map Prod.fst).getD "",
      (lookupAsg st.assignments i).getD .pending)

theorem attemptFrom_first_ok (resp : Nat → UploadResp) (i fuel : Nat)
    (u : String) (m : Option String) (h : resp i = .ok u m) :
    attemptFrom resp i fuel = ⟨.ok (u, m), 1, 0⟩ := by
  cases fuel <;> simp [attemptFrom, attemptStep, h]

/-- C6: for every upload task whose remote call returns a
credential-expired response (as opposed to any other failure kind), the
scheduler forces exactly one token refresh and retries that single upload
call exactly once before marking the task terminal: the attempt loop
issues exactly two transport calls and one refresh, resolves with the
retry result when the retry succeeds and fails with the credential error
otherwise, and a cache-missing `runTask` on such a task increments the
shared refresh count by exactly one. -/
theorem cred_expired_single_refresh_retry
    (upload : ByteContent → Nat → UploadResp) (b : ByteContent)
    (max_retries : Nat) (h0 : upload b 0 = .credentialExpired) :
    (attemptFrom (upload b) 0 max_retries).refreshes = 1 ∧
    (attemptFrom (upload b) 0 max_retries).calls = 2 ∧
    (∀ u m, upload b 1 = .ok u m →
      (attemptFrom (upload b) 0 max_retries).outcome = .ok (u, m)) ∧
    ((∀ u m, upload b 1 ≠ .ok u m) →
      (attemptFrom (upload b) 0 max_retries).outcome = .error .credential) ∧
    (∀ idx r st, lookupCache st.cache (hashBytes b) = none →
      (runTask upload max_retries idx (r, b) st).refresh_count =
        st.refresh_count + 1) := by
  have key : attemptFrom (upload b) 0 max_retries =
      match upload b 1 with
      | .ok u m => ⟨.ok (u, m), 2, 1⟩
      | _ => ⟨.error .credential, 2, 1⟩ := by
    cases max_retries <;> simp [attemptFrom, attemptStep, h0]
  have hrefresh : (attemptFrom (upload b) 0 max_retries).refreshes = 1 := by
    rw [key]; cases upload b 1 <;> rfl
  have hcalls : (attemptFrom (upload b) 0 max_retries).calls = 2 := by
    rw [key]; cases upload b 1 <;> rfl
  refine ⟨hrefresh, hcalls, ?_, ?_, ?_⟩
  · intro u m h1
    rw [key, h1]
  · intro hne
    rw [key]
    cases h1 : upload b 1 with
    | ok u m => exact absurd h1 (hne u m)
    | credentialExpired => rfl
    | transientFailure msg => rfl
    | terminalFailure msg => rfl
  · intro idx r st hmiss
    unfold runTask
    simp only [hmiss]
    cases ho : (attemptFrom (upload b) 0 max_retries).outcome with
    | ok p =>
      obtain ⟨u, m⟩ := p
      simp [ho, hrefresh]
    | error e =>
      simp [ho, hrefresh]

/-- The transport behavior of the C6 witness: credential-expired on the
first attempt, a transient network failure on every later one. -/
def respW : ByteContent → Nat → UploadResp := fun _ n =>
  if n = 0 then .credentialExpired else .transientFailure "net"

/-- Witness for C6: with a first-attempt credential-expired response and a
failing retry, the attempt loop makes one refresh and two calls and
resolves with the credential error, and a cache-missing run increments
the refresh count by one. -/
theorem cred_expired_single_refresh_retry_witness :
    respW [5] 0 = UploadResp.credentialExpired ∧
    (attemptFrom (respW [5]) 0 3).refreshes = 1 ∧
    (attemptFrom (respW [5]) 0 3).calls = 2 ∧
    (attemptFrom (respW [5]) 0 3).outcome = Except.error UploadErr.credential ∧
    (runTask respW 3 0 ("a", [5]) initState).refresh_count = 0 + 1 := by
  have h := cred_expired_single_refresh_retry respW [5] 3 rfl
  exact ⟨rfl, h.1, h.2.1,
    h.2.2.2.1 (fun u m hm => by simp [respW] at hm),
    h.2.2.2.2 0 "a" initState rfl⟩

theorem map_range_getD {α β : Type} (l : List α) (f : α → β) (d : β) :
    (List.range l.length).map (fun i => (l[i]?.map f).getD d) =
      l.map f := by
  induction l with
  | nil => rfl
  | cons x xs ih =>
    have hcomp :
        ((fun i => ((x :: xs)[i]?.map f).getD d) ∘ Nat.succ) =
          fun i => (xs[i]?.map f).getD d := by
      funext i
      simp
    simp only [List.length_cons, List.range_succ_eq_map, List.map_cons,
      List.map_map, hcomp, ih]
    simp

/-- C2: for every ordered input sequence of (reference, bytes) tasks,
`upload_all` returns one outcome per input task in a sequence whose
position-to-reference correspondence equals the input's, regardless of
the order in which the individual uploads complete. -/
theorem order_preservation (upload : ByteContent → Nat → UploadResp)
    (max_retries : Nat) (tasks : List (String × ByteContent))
    (order : List Nat) :
    (upload_all upload max_retries tasks order).length = tasks.length ∧
    (upload_all upload max_retries tasks order).map Prod.fst =
      tasks.map Prod.fst := by
  constructor
  · simp [upload_all]
  · simp only [upload_all, List.map_map]
    have h := map_range_getD tasks Prod.fst ""
    simpa [Function.comp] using h

/-- A task index has been resolved: it carries an assignment that is not
pending. -/
def assignedResolved (st : SchedState) (i : Nat) : Prop :=
  ∃ o, lookupAsg st.assignments i = some o ∧ o ≠ Outcome.pending

theorem runTask_assignments (upload : ByteContent → Nat → UploadResp)
    (mr idx : Nat) (t : String × ByteContent) (st : SchedState) :
    ∃ o, (runTask upload mr idx t st).assignments = (idx, o) :: st.assignments
      ∧ o ≠ Outcome.pending := by
  unfold runTask
  cases h : lookupCache st.cache (hashBytes t.2) with
  | some entry =>
    exact ⟨.succeeded entry.remote_url, by simp [h], by simp⟩
  | none =>
    cases ho : (attemptFrom (upload t.2) 0 mr).outcome with
    | ok p =>
      obtain ⟨u, m⟩ := p
      exact ⟨.succeeded (insert_if_absent st.cache (hashBytes t.2) ⟨u, m⟩).2.remote_url,
        by simp [h, ho], by simp⟩
    | error e =>
      exact ⟨.failed e, by simp [h, ho], by simp⟩

theorem runTask_cache_preserve (upload : ByteContent → Nat → UploadResp)
    (mr idx : Nat) (t : String × ByteContent) (st : SchedState)
    (k : Nat) (e : CacheEntry) (h : lookupCache st.cache k = some e) :
    lookupCache (runTask upload mr idx t st).cache k = some e := by
  unfold runTask
  cases hl : lookupCache st.cache (hashBytes t.2) with
  | some entry => simpa [hl] using h
  | none =>
    cases ho : (attemptFrom (upload t.2) 0 mr).outcome with
    | ok p =>
      obtain ⟨u, m⟩ := p
      simp only [hl, ho]
      unfold insert_if_absent
      rw [hl]
      simp only [lookupCache]
      by_cases hk : hashBytes t.2 = k
      · rw [hk] at hl
        rw [hl] at h
        cases h
      · simpa [hk] using h
    | error e2 => simpa [hl, ho] using h

theorem assigned_preserved_runTask (upload : ByteContent → Nat → UploadResp)
    (mr idx : Nat) (t : String × ByteContent) (st : SchedState) (i : Nat)
    (h : assignedResolved st i) :
    assignedResolved (runTask upload mr idx t st) i := by
  obtain ⟨o, ho, hnp⟩ := h
  obtain ⟨o2, ha, hnp2⟩ := runTask_assignments upload mr idx t st
  by_cases hi : idx = i
  · exact ⟨o2, by rw [ha]; simp [lookupAsg, hi], hnp2⟩
  · exact ⟨o, by rw [ha]; simp [lookupAsg, hi, ho], hnp⟩

theorem assigned_preserved_runSched (upload : ByteContent → Nat → UploadResp)
    (mr : Nat) (tasks : List (String × ByteContent)) (order : List Nat)
    (st : SchedState) (i : Nat) (h : assignedResolved st i) :
    assignedResolved (runSched upload mr tasks order st) i := by
  induction order generalizing st with
  | nil => simpa [runSched] using h
  | cons j rest ih =>
    cases hj : tasks[j]? with
    | none => simpa [runSched, hj] using ih st h
    | some t =>
      simpa [runSched, hj] using
        ih (runTask upload mr j t st)
          (assigned_preserved_runTask upload mr j t st i h)

theorem runSched_assigns (upload : ByteContent → Nat → UploadResp)
    (mr : Nat) (tasks : List (String × ByteContent)) (order : List Nat)
    (st : SchedState) (i : Nat) (hmem : i ∈ order)
    (hsome : tasks[i]?.isSome = true) :
    assignedResolved (runSched upload mr tasks order st) i := by
  induction order generalizing st with
  | nil => cases hmem
  | cons j rest ih =>
    rcases List.mem_cons.1 hmem with hij | hrest
    · subst hij
      obtain ⟨t, ht⟩ := Option.isSome_iff_exists.1 hsome
      have hassigned : assignedResolved (runTask upload mr i t st) i := by
        obtain ⟨o, ha, hnp⟩ := runTask_assignments upload mr i t st
        exact ⟨o, by rw [ha]; simp [lookupAsg], hnp⟩
      simpa [runSched, ht] using
        assigned_preserved_runSched upload mr tasks rest
          (runTask upload mr i t st) i hassigned
    · cases hj : tasks[j]? with
      | none => simpa [runSched, hj] using ih st hrest
      | some t => simpa [runSched, hj] using ih (runTask upload mr j t st) hrest

/-- C3: a terminal failure of one task does not abort the bulk operation:
`upload_all` returns one outcome per input task, and every input position
resolves to either a remote URL or a terminal error, so the result set
may mix successes and failures. -/
theorem partial_failure_reporting (upload : ByteContent → Nat → UploadResp)
    (max_retries : Nat) (tasks : List (String × ByteContent))
    (order : List Nat) (hperm : order.Perm (List.range tasks.length)) :
    (upload_all upload max_retries tasks order).length = tasks.length ∧
    ∀ i, i < tasks.length →
      (∃ u, ((upload_all upload max_retries tasks order)[i]?).map Prod.snd =
        some (Outcome.succeeded u)) ∨
      (∃ e, ((upload_all upload max_retries tasks order)[i]?).map Prod.snd =
        some (Outcome.failed e)) := by
  refine ⟨by simp [upload_all], ?_⟩
  intro i hi
  have hmem : i ∈ order := hperm.mem_iff.2 (List.mem_range.2 hi)
  have hsome : tasks[i]?.isSome = true := by
    rw [List.getElem?_eq_getElem hi]
    rfl
  obtain ⟨o, ho, hnp⟩ :=
    runSched_assigns upload max_retries tasks order initState i hmem hsome
  have hget : ((upload_all upload max_retries tasks order)[i]?).map Prod.snd
      = some o := by
    simp [upload_all, List.getElem?_map, List.getElem?_range hi, ho]
  cases o with
  | pending => exact absurd rfl hnp
  | succeeded u => exact Or.inl ⟨u, hget⟩
  | failed e => exact Or.inr ⟨e, hget⟩

/-- The tasks of the C3 witness: task "b" carries byte content the
transport rejects terminally, tasks "a" and "c" succeed. -/
def tasksW3 : List (String × ByteContent) := [("a", [1]), ("b", [2]), ("c", [3])]

/-- The transport behavior of the C3 witness. -/
def uploadW3 : ByteContent → Nat → UploadResp := fun b _ =>
  match b with
  | [2] => .terminalFailure "unsupported content"
  | [1] => .ok "u1" none
  | _ => .ok "u3" none

/-- Witness for C3: a run with a terminally failing middle task still
produces three outcomes, each either a success or a terminal failure. -/
theorem partial_failure_reporting_witness :
    ([2, 0, 1] : List Nat).Perm (List.range tasksW3.length) ∧
    ((upload_all uploadW3 2 tasksW3 [2, 0, 1]).length = tasksW3.length ∧
    ∀ i, i < tasksW3.length →
      (∃ u, ((upload_all uploadW3 2 tasksW3 [2, 0, 1])[i]?).map Prod.snd =
        some (Outcome.succeeded u)) ∨
      (∃ e, ((upload_all uploadW3 2 tasksW3 [2, 0, 1])[i]?).map Prod.snd =
        some (Outcome.failed e))) :=
  ⟨by decide, partial_failure_reporting uploadW3 2 tasksW3 [2, 0, 1] (by decide)⟩

theorem count_append_replicate_ne (log : List ByteContent)
    (c b : ByteContent) (n : Nat) (h : ¬ b = c) :
    (log ++ List.replicate n c).count b = log.count b := by
  simp [List.count_append, List.count_replicate, h, Ne.symm h]

theorem runTask_count_ne (upload : ByteContent → Nat → UploadResp)
    (mr idx : Nat) (t : String × ByteContent) (st : SchedState)
    (b : ByteContent) (hb : ¬ t.2 = b) :
    (runTask upload mr idx t st).callLog.count b = st.callLog.count b := by
  unfold runTask
  cases hl : lookupCache st.cache (hashBytes t.2) with
  | some entry => simp [hl]
  | none =>
    cases ho : (attemptFrom (upload t.2) 0 mr).outcome with
    | ok p =>
      obtain ⟨u, m⟩ := p
      simp [hl, ho, count_append_replicate_ne _ _ _ _ (fun he => hb he.symm)]
    | error e =>
      simp [hl, ho, count_append_replicate_ne _ _ _ _ (fun he => hb he.symm)]

theorem runTask_cache_none (upload : ByteContent → Nat → UploadResp)
    (mr idx : Nat) (t : String × ByteContent) (st : SchedState) (k : Nat)
    (h : lookupCache (runTask upload mr idx t st).cache k = none) :
    lookupCache st.cache k = none := by
  cases hold : lookupCache st.cache k with
  | none => rfl
  | some e =>
    have := runTask_cache_preserve upload mr idx t st k e hold
    rw [h] at this
    cases this

/-- The dedup invariant for byte content `b`: while the Upload Cache has
no entry at the content identifier of `b` no transport call for `b` has
been logged, at most one transport call for `b` is ever logged, and every
resolved task carrying content `b` is a success holding the URL of the
cache entry at that identifier. -/
def dedupInv (b : ByteContent) (tasks : List (String × ByteContent))
    (st : SchedState) : Prop :=
  (lookupCache st.cache (hashBytes b) = none → st.callLog.count b = 0) ∧
  st.callLog.count b ≤ 1 ∧
  ∀ i o, lookupAsg st.assignments i = some o →
    (∃ r, tasks[i]? = some (r, b)) →
    ∃ e, lookupCache st.cache (hashBytes b) = some e ∧
      o = Outcome.succeeded e.remote_url

theorem dedupInv_init (b : ByteContent)
    (tasks : List (String × ByteContent)) : dedupInv b tasks initState := by
  refine ⟨fun _ => by simp [initState], by simp [initState], ?_⟩
  intro i o hlo _
  simp [initState, lookupAsg] at hlo

theorem dedupInv_runTask (upload : ByteContent → Nat → UploadResp)
    (mr : Nat) (b : ByteContent) (u : String) (m : Option String)
    (hok : upload b 0 = .ok u m)
    (tasks : List (String × ByteContent)) (idx : Nat)
    (t : String × ByteContent) (st : SchedState)
    (ht : tasks[idx]? = some t)
    (hinv : dedupInv b tasks st) :
    dedupInv b tasks (runTask upload mr idx t st) := by
  obtain ⟨r0, c0⟩ := t
  by_cases hb : c0 = b
  · subst hb
    cases hl : lookupCache st.cache (hashBytes c0) with
    | some entry =>
      have hrt : runTask upload mr idx (r0, c0) st =
          { st with assignments :=
              (idx, Outcome.succeeded entry.remote_url) :: st.assignments } := by
        simp [runTask, hl]
      rw [hrt]
      refine ⟨fun hnone => hinv.1 hnone, hinv.2.1, ?_⟩
      intro i o hlo hib
      by_cases hii : idx = i
      · have ho : some (Outcome.succeeded entry.remote_url) = some o := by
          simpa [lookupAsg, hii] using hlo
        exact ⟨entry, hl, (Option.some.inj ho).symm⟩
      · have hlo2 : lookupAsg st.assignments i = some o := by
          simpa [lookupAsg, hii] using hlo
        exact hinv.2.2 i o hlo2 hib
    | none =>
      have hatt : attemptFrom (upload c0) 0 mr = ⟨.ok (u, m), 1, 0⟩ :=
        attemptFrom_first_ok (upload c0) 0 mr u m hok
      have hct : st.callLog.count c0 = 0 := hinv.1 hl
      have hins : insert_if_absent st.cache (hashBytes c0) ⟨u, m⟩ =
          ((hashBytes c0, ⟨u, m⟩) :: st.cache, ⟨u, m⟩) := by
        simp [insert_if_absent, hl]
      have hrt : runTask upload mr idx (r0, c0) st =
          { cache := (hashBytes c0, ⟨u, m⟩) :: st.cache
            callLog := st.callLog ++ [c0]
            refresh_count := st.refresh_count
            assignments := (idx, Outcome.succeeded u) :: st.assignments } := by
        simp [runTask, hl, hatt, hins]
      rw [hrt]
      refine ⟨?_, ?_, ?_⟩
      · intro hnone
        simp [lookupCache] at hnone
      · simp [List.count_append, hct]
      · intro i o hlo hib
        by_cases hii : idx = i
        · have ho : some (Outcome.succeeded u) = some o := by
            simpa [lookupAsg, hii] using hlo
          exact ⟨⟨u, m⟩, by simp [lookupCache], (Option.some.inj ho).symm⟩
        · have hlo2 : lookupAsg st.assignments i = some o := by
            simpa [lookupAsg, hii] using hlo
          obtain ⟨e, he, _⟩ := hinv.2.2 i o hlo2 hib
          rw [hl] at he
          cases he
  · obtain ⟨o2, ha, -⟩ := runTask_assignments upload mr idx (r0, c0) st
    refine ⟨?_, ?_, ?_⟩
    · intro hnone
      have hold := runTask_cache_none upload mr idx (r0, c0) st _ hnone
      have hz := hinv.1 hold
      rw [runTask_count_ne upload mr idx (r0, c0) st b hb]
      exact hz
    · rw [runTask_count_ne upload mr idx (r0, c0) st b hb]
      exact hinv.2.1
    · intro i o hlo hib
      rw [ha] at hlo
      by_cases hii : idx = i
      · obtain ⟨r, hr⟩ := hib
        rw [← hii, ht] at hr
        have : c0 = b := congrArg Prod.snd (Option.some.inj hr)
        exact absurd this hb
      · have hlo2 : lookupAsg st.assignments i = some o := by
          simpa [lookupAsg, hii] using hlo
        obtain ⟨e, he, heo⟩ := hinv.2.2 i o hlo2 hib
        exact ⟨e, runTask_cache_preserve upload mr idx (r0, c0) st _ e he, heo⟩

theorem dedupInv_runSched (upload : ByteContent → Nat → UploadResp)
    (mr : Nat) (b : ByteContent) (u : String) (m : Option String)
    (hok : upload b 0 = .ok u m)
    (tasks : List (String × ByteContent)) (order : List Nat)
    (st : SchedState) (hinv : dedupInv b tasks st) :
    dedupInv b tasks (runSched upload mr tasks order st) := by
  induction order generalizing st with
  | nil => simpa [runSched] using hinv
  | cons j rest ih =>
    cases hj : tasks[j]? with
    | none => simpa [runSched, hj] using ih st hinv
    | some t =>
      simpa [runSched, hj] using
        ih (runTask upload mr j t st)
          (dedupInv_runTask upload mr b u m hok tasks j t st hj hinv)

/-- C1: for every input sequence of upload tasks in which two or more
tasks have identical byte content `b` (whose upload the transport
accepts), the transport upload call is invoked at most once for that
content, and every task carrying that content resolves to the same
remote URL. -/
theorem dedup_single_upload (upload : ByteContent → Nat → UploadResp)
    (max_retries : Nat) (tasks : List (String × ByteContent))
    (order : List Nat) (b : ByteContent) (u : String) (m : Option String)
    (hok : upload b 0 = .ok u m)
    (hperm : order.Perm (List.range tasks.length)) :
    (runSched upload max_retries tasks order initState).callLog.count b ≤ 1 ∧
    ∃ url, ∀ i, i < tasks.length → ∀ r, tasks[i]? = some (r, b) →
      ((upload_all upload max_retries tasks order)[i]?).map Prod.snd =
        some (Outcome.succeeded url) := by
  have hinv := dedupInv_runSched upload max_retries b u m hok tasks order
    initState (dedupInv_init b tasks)
  refine ⟨hinv.2.1, ?_⟩
  refine ⟨((lookupCache (runSched upload max_retries tasks order
    initState).cache (hashBytes b)).map CacheEntry.remote_url).getD "", ?_⟩
  intro i hi r hib
  have hmem : i ∈ order := hperm.mem_iff.2 (List.mem_range.2 hi)
  have hsome : tasks[i]?.isSome = true := by rw [hib]; rfl
  obtain ⟨o, ho, hnp⟩ :=
    runSched_assigns upload max_retries tasks order initState i hmem hsome
  obtain ⟨e, he, heo⟩ := hinv.2.2 i o ho ⟨r, hib⟩
  have hurl : ((lookupCache (runSched upload max_retries tasks order
      initState).cache (hashBytes b)).map CacheEntry.remote_url).getD ""
      = e.remote_url := by rw [he]; rfl
  rw [hurl]
  simp [upload_all, List.getElem?_map, List.getElem?_range hi, ho, heo]

/-- The tasks of the C1 witness: tasks "a" and "b" share identical byte
content. -/
def tasksD : List (String × ByteContent) := [("a", [7]), ("b", [7]), ("c", [9])]

/-- The transport behavior of the C1 witness: every upload succeeds on
the first attempt with a URL determined by the content. -/
def uploadD : ByteContent → Nat → UploadResp := fun b _ =>
  if b = [7] then .ok "u7" none else .ok "u9" none

/-- Witness for C1: in a run with two tasks of identical content the
transport is called at most once for that content and both tasks resolve
to the same URL. -/
theorem dedup_single_upload_witness :
    uploadD [7] 0 = UploadResp.ok "u7" none ∧
    ([1, 2, 0] : List Nat).Perm (List.range tasksD.length) ∧
    ((runSched uploadD 2 tasksD [1, 2, 0] initState).callLog.count [7] ≤ 1 ∧
    ∃ url, ∀ i, i < tasksD.length → ∀ r, tasksD[i]? = some (r, [7]) →
      ((upload_all uploadD 2 tasksD [1, 2, 0])[i]?).map Prod.snd =
        some (Outcome.succeeded url)) :=
  ⟨rfl, by decide,
    dedup_single_upload uploadD 2 tasksD [1, 2, 0] [7] "u7" none rfl (by decide)⟩
